import Mathlib

/-!
Verification of the medium sampling core of `mitsuba3-emissive-media`
(`src/include/mitsuba/render/medium.h`).

The spectral arithmetic of the three interaction-probability heuristics
(`medium_probabilities_analog`, `medium_probabilities_max`,
`medium_probabilities_mean`) is embedded directly from the inline bodies in
the header.  The bodies of `sample_interaction`, `transmittance_eval_pdf`
and the mode dispatch of `get_interaction_probabilities` are declared in the
header but implemented in a translation unit that is not part of the sources;
those are modelled from the specification (each such definition carries a
doc comment starting with `Modelled from the spec:`).

Floating-point arithmetic is embedded as exact arithmetic: rationals for the
purely algebraic probability heuristics, reals where `exp`/`log` appear
(free-flight sampling and transmittance evaluation).
-/

namespace MitsubaMedium

/-- A spectral sample with `n + 1` channels over the scalar type `α`
(`UnpolarizedSpectrum` in the source; `n + 1` keeps the channel set
nonempty, as every spectral mode of the renderer has at least one
channel). -/
def Spec (α : Type) (n : ℕ) : Type := Fin (n + 1) → α

/-- The `MediumInteraction` record (spec §3 data model): sampled distance
`t`, per-channel scattering / null / extinction coefficients, the majorant
(combined extinction) recorded for transmittance evaluation (spec §4.2),
and the per-lane activity flag. -/
structure MediumInteraction (α : Type) (n : ℕ) where
  t : α
  sigma_s : Spec α n
  sigma_n : Spec α n
  sigma_t : Spec α n
  sigma_maj : Spec α n
  active : Bool

section SpectralOps

variable {α : Type} [LinearOrderedField α] {n : ℕ}

/-- Componentwise absolute value, `dr::abs`. -/
def specAbs (v : Spec α n) : Spec α n := fun i => |v i|

/-- Componentwise product of two spectra. -/
def specMul (v w : Spec α n) : Spec α n := fun i => v i * w i

/-- Horizontal arithmetic mean over the channels, `dr::mean`. -/
def specMean (v : Spec α n) : α := (∑ i, v i) / (n + 1)

/-- Horizontal maximum over the channels, `dr::max`. -/
def specMax (v : Spec α n) : α :=
  Finset.univ.sup' (Finset.univ_nonempty) v

/-- `medium_probabilities_analog` (medium.h lines 47-53):
`prob_s = mi.sigma_t`,
`prob_n = mi.sigma_n + dr::maximum(radiance, dr::mean(dr::abs(radiance)))`;
both per-channel, no reduction. -/
def medium_probabilities_analog (radiance : Spec α n)
    (mi : MediumInteraction α n) : Spec α n × Spec α n :=
  (mi.sigma_t,
   fun i => mi.sigma_n i + max (radiance i) (specMean (specAbs radiance)))

/-- `medium_probabilities_max` (medium.h lines 55-63):
`prob_s = dr::max(dr::abs(mi.sigma_t * throughput))`,
`prob_n = dr::max(dr::abs(mi.sigma_n * throughput))
        + dr::max(dr::abs(radiance * dr::maximum(1, throughput)))`;
both reduced to a single scalar. -/
def medium_probabilities_max (radiance : Spec α n)
    (mi : MediumInteraction α n) (throughput : Spec α n) : α × α :=
  (specMax (specAbs (specMul mi.sigma_t throughput)),
   specMax (specAbs (specMul mi.sigma_n throughput)) +
     specMax (specAbs (specMul radiance (fun i => max 1 (throughput i)))))

/-- `medium_probabilities_mean` (medium.h lines 65-73):
`prob_s = dr::mean(dr::abs(mi.sigma_t * throughput))`,
`prob_n = dr::mean(dr::abs(mi.sigma_n * throughput))
        + dr::mean(dr::abs(radiance * (0.5 + 0.5 * throughput)))`;
both reduced to a single scalar. -/
def medium_probabilities_mean (radiance : Spec α n)
    (mi : MediumInteraction α n) (throughput : Spec α n) : α × α :=
  (specMean (specAbs (specMul mi.sigma_t throughput)),
   specMean (specAbs (specMul mi.sigma_n throughput)) +
     specMean (specAbs (specMul radiance
       (fun i => 1 / 2 + 1 / 2 * throughput i))))

end SpectralOps

/-- The sampling-mode enumeration `MediumEventSamplingMode`
(medium.h lines 11-15). -/
inductive MediumEventSamplingMode : Type where
  | Analogue : MediumEventSamplingMode
  | Maximum : MediumEventSamplingMode
  | Mean : MediumEventSamplingMode

/-- Modelled from the spec: the body of `get_interaction_probabilities` is
not among the sources (medium.h lines 41-45 only declare it).  Per spec
§4.3, the sampling mode fixed at construction selects one of the three
heuristics; the Maximum and Mean heuristics produce a single scalar
discrete-choice probability, broadcast here across the spectrum so that all
modes return per-channel values, as in the declared
`UnpolarizedSpectrum`-pair return type.  The collision weights also listed
in the contract have no formula in the spec and are not modelled. -/
def get_interaction_probabilities {α : Type} [LinearOrderedField α] {n : ℕ}
    (mode : MediumEventSamplingMode) (radiance : Spec α n)
    (mi : MediumInteraction α n) (throughput : Spec α n) :
    Spec α n × Spec α n :=
  match mode with
  | MediumEventSamplingMode.Analogue =>
      medium_probabilities_analog radiance mi
  | MediumEventSamplingMode.Maximum =>
      ((fun _ => (medium_probabilities_max radiance mi throughput).1),
       (fun _ => (medium_probabilities_max radiance mi throughput).2))
  | MediumEventSamplingMode.Mean =>
      ((fun _ => (medium_probabilities_mean radiance mi throughput).1),
       (fun _ => (medium_probabilities_mean radiance mi throughput).2))

/-- Modelled from the spec: the interaction returned when no medium event
happens — the lane is inactive, the boundary distance `t_max` is kept as a
sentinel for the caller (spec §4.1 steps 1 and 4), the coefficients stay
zero because inactive lanes must not evaluate coefficients at an invalid
point (spec §9). -/
def noInteraction {n : ℕ} (t_max : ℝ) (maj : Spec ℝ n) :
    MediumInteraction ℝ n :=
  ⟨t_max, fun _ => 0, fun _ => 0, fun _ => 0, maj, false⟩

/-- Modelled from the spec: the body of `sample_interaction` is not among
the sources (medium.h lines 98-99 only declare it).  Spec §4.1, simplest
conformant implementation (single constant majorant over the segment):
the boundary intersection supplies `(hit, t_min, t_max)`; a non-positive
majorant at the sampling channel short-circuits to no interaction (spec §7)
before the exponential step `t_min -= log(1 - u) / sigma_maj`; a step past
`t_max` exits the medium with the inactive sentinel; otherwise the
coefficient evaluator fills the coefficients at the sampled point and the
lane is active. -/
noncomputable def sample_interaction {n : ℕ} (hit : Bool)
    (t_min t_max : ℝ) (maj : Spec ℝ n) (channel : Fin (n + 1)) (u : ℝ)
    (coeffs : ℝ → Spec ℝ n × Spec ℝ n × Spec ℝ n) :
    MediumInteraction ℝ n :=
  if hit then
    if maj channel ≤ 0 then noInteraction t_max maj
    else
      if t_max < t_min - Real.log (1 - u) / maj channel then
        noInteraction t_max maj
      else
        ⟨t_min - Real.log (1 - u) / maj channel,
         (coeffs (t_min - Real.log (1 - u) / maj channel)).1,
         (coeffs (t_min - Real.log (1 - u) / maj channel)).2.1,
         (coeffs (t_min - Real.log (1 - u) / maj channel)).2.2,
         maj, true⟩
  else noInteraction t_max maj

/-- Modelled from the spec: the body of `transmittance_eval_pdf` is not
among the sources (medium.h lines 116-119 only declare it).  Spec §4.2:
if `mi.t <= si.t` the transmittance is `exp(-sigma_maj * mi.t)` and the
pdf is `sigma_t * exp(-sigma_maj * mi.t)`; if `mi.t > si.t` both equal the
survival probability `exp(-sigma_maj * si.t)`; all per spectral channel. -/
noncomputable def transmittance_eval_pdf {n : ℕ}
    (mi : MediumInteraction ℝ n) (si_t : ℝ) : Spec ℝ n × Spec ℝ n :=
  if mi.t ≤ si_t then
    (fun i => Real.exp (-(mi.sigma_maj i) * mi.t),
     fun i => mi.sigma_t i * Real.exp (-(mi.sigma_maj i) * mi.t))
  else
    (fun i => Real.exp (-(mi.sigma_maj i) * si_t),
     fun i => Real.exp (-(mi.sigma_maj i) * si_t))

/-- A two-channel interaction with channel-varying extinction (1 on the
first channel, 3 on the second), zero scattering and null coefficients
equal to the extinction, used to exhibit the divergence of the three
sampling heuristics on multi-channel input. -/
def divergenceInteraction : MediumInteraction ℚ 1 :=
  ⟨0, fun _ => 0, fun j => if j = 0 then 1 else 3,
   fun j => if j = 0 then 1 else 3, fun _ => 3, true⟩

section Reductions

variable {α : Type} [LinearOrderedField α]

/-- On a single-channel spectrum the mean reduction returns the channel. -/
theorem specMean_single (v : Spec α 0) : specMean v = v 0 := by
  simp [specMean]

/-- On a single-channel spectrum the max reduction returns the channel. -/
theorem specMax_single (v : Spec α 0) : specMax v = v 0 := by
  simp [specMax, Finset.univ_unique]

/-- Each channel is bounded by the max reduction. -/
theorem le_specMax {n : ℕ} (v : Spec α n) (i : Fin (n + 1)) :
    v i ≤ specMax v :=
  Finset.le_sup' v (Finset.mem_univ i)

/-- The mean of a componentwise nonnegative spectrum is nonnegative. -/
theorem specMean_nonneg {n : ℕ} (v : Spec α n) (h : ∀ i, 0 ≤ v i) :
    0 ≤ specMean v :=
  div_nonneg (Finset.sum_nonneg fun i _ => h i) (by positivity)

/-- The max reduction of an absolute-value spectrum is nonnegative. -/
theorem specMax_specAbs_nonneg {n : ℕ} (v : Spec α n) :
    0 ≤ specMax (specAbs v) :=
  le_trans (abs_nonneg (v 0)) (le_specMax (specAbs v) 0)

/-- On a two-channel spectrum the max reduction is the binary max. -/
theorem specMax_two (v : Spec α 1) : specMax v = max (v 0) (v 1) := by
  apply le_antisymm
  · apply Finset.sup'_le
    intro j _
    fin_cases j
    · exact le_max_left _ _
    · exact le_max_right _ _
  · exact max_le (le_specMax v 0) (le_specMax v 1)

/-- On a two-channel spectrum the mean reduction is the half-sum. -/
theorem specMean_two (v : Spec α 1) : specMean v = (v 0 + v 1) / 2 := by
  simp [specMean, Fin.sum_univ_two]
  norm_num

/-- Two pairs of single-channel spectra agreeing at the unique channel are
equal. -/
theorem single_channel_pair_ext {α : Type} (a b : Spec α 0 × Spec α 0)
    (h1 : a.1 0 = b.1 0) (h2 : a.2 0 = b.2 0) : a = b := by
  obtain ⟨a1, a2⟩ := a
  obtain ⟨b1, b2⟩ := b
  simp only [Prod.mk.injEq]
  exact ⟨funext fun i => by rw [Fin.eq_zero i]; exact h1,
         funext fun i => by rw [Fin.eq_zero i]; exact h2⟩

end Reductions

/-- C3: in Analog mode `get_interaction_probabilities` computes per-channel
(no reduction) `prob_s = mi.sigma_t` and
`prob_n = mi.sigma_n + max(radiance, mean(|radiance|))`, the max taken
componentwise against the scalar mean of the absolute radiance. -/
theorem C3_analog_per_channel {n : ℕ} (radiance : Spec ℚ n)
    (mi : MediumInteraction ℚ n) (throughput : Spec ℚ n) (i : Fin (n + 1)) :
    (get_interaction_probabilities MediumEventSamplingMode.Analogue
        radiance mi throughput).1 i = mi.sigma_t i ∧
    (get_interaction_probabilities MediumEventSamplingMode.Analogue
        radiance mi throughput).2 i =
      mi.sigma_n i + max (radiance i) ((∑ j, |radiance j|) / (n + 1)) := by
  exact ⟨rfl, rfl⟩

/-- C4: in Maximum mode `get_interaction_probabilities` returns the scalars
`prob_s = max_j |sigma_t_j * throughput_j|` and
`prob_n = max_j |sigma_n_j * throughput_j|
        + max_j |radiance_j * max(1, throughput_j)|`, broadcast across
channels. -/
theorem C4_maximum_scalars {n : ℕ} (radiance : Spec ℚ n)
    (mi : MediumInteraction ℚ n) (throughput : Spec ℚ n) (i : Fin (n + 1)) :
    (get_interaction_probabilities MediumEventSamplingMode.Maximum
        radiance mi throughput).1 i =
      Finset.univ.sup' Finset.univ_nonempty
        (fun j => |mi.sigma_t j * throughput j|) ∧
    (get_interaction_probabilities MediumEventSamplingMode.Maximum
        radiance mi throughput).2 i =
      Finset.univ.sup' Finset.univ_nonempty
          (fun j => |mi.sigma_n j * throughput j|) +
        Finset.univ.sup' Finset.univ_nonempty
          (fun j => |radiance j * max 1 (throughput j)|) := by
  exact ⟨rfl, rfl⟩

/-- C5: in Mean mode `get_interaction_probabilities` has the structure of
Maximum with arithmetic-mean reductions in place of max, and radiance
weight `0.5 + 0.5 * throughput` in place of `max(1, throughput)`:
`prob_s = mean_j |sigma_t_j * throughput_j|` and
`prob_n = mean_j |sigma_n_j * throughput_j|
        + mean_j |radiance_j * (0.5 + 0.5 * throughput_j)|`. -/
theorem C5_mean_scalars {n : ℕ} (radiance : Spec ℚ n)
    (mi : MediumInteraction ℚ n) (throughput : Spec ℚ n) (i : Fin (n + 1)) :
    (get_interaction_probabilities MediumEventSamplingMode.Mean
        radiance mi throughput).1 i =
      (∑ j, |mi.sigma_t j * throughput j|) / (n + 1) ∧
    (get_interaction_probabilities MediumEventSamplingMode.Mean
        radiance mi throughput).2 i =
      (∑ j, |mi.sigma_n j * throughput j|) / (n + 1) +
        (∑ j, |radiance j * (1 / 2 + 1 / 2 * throughput j)|) / (n + 1) := by
  exact ⟨rfl, rfl⟩

/-- C10: in Analog mode the result of `get_interaction_probabilities` is
independent of the throughput argument — any two throughput values give
the same probability pair, since `medium_probabilities_analog` never reads
the throughput. -/
theorem C10_analog_ignores_throughput {n : ℕ} (radiance : Spec ℚ n)
    (mi : MediumInteraction ℚ n) (th th' : Spec ℚ n) :
    get_interaction_probabilities MediumEventSamplingMode.Analogue
        radiance mi th =
      get_interaction_probabilities MediumEventSamplingMode.Analogue
        radiance mi th' := rfl

/-- C2 fails as stated: on a single-channel input with throughput 2,
extinction 1 and zero radiance, Analog returns `prob_s = 1` while Maximum
returns `prob_s = |1 * 2| = 2`, so the heuristics do not agree on every
identical single-channel input. -/
theorem C2_counterexample :
    ¬ ((get_interaction_probabilities MediumEventSamplingMode.Analogue
          (fun _ => 0)
          ⟨0, fun _ => 0, fun _ => 0, fun _ => 1, fun _ => 1, true⟩
          (fun _ => 2) : Spec ℚ 0 × Spec ℚ 0).1 0 =
       (get_interaction_probabilities MediumEventSamplingMode.Maximum
          (fun _ => 0)
          ⟨0, fun _ => 0, fun _ => 0, fun _ => 1, fun _ => 1, true⟩
          (fun _ => 2) : Spec ℚ 0 × Spec ℚ 0).1 0) := by
  intro h
  have hA : (get_interaction_probabilities MediumEventSamplingMode.Analogue
      (fun _ => 0)
      ⟨0, fun _ => 0, fun _ => 0, fun _ => 1, fun _ => 1, true⟩
      (fun _ => 2) : Spec ℚ 0 × Spec ℚ 0).1 0 = 1 := rfl
  have hM : (get_interaction_probabilities MediumEventSamplingMode.Maximum
      (fun _ => 0)
      ⟨0, fun _ => 0, fun _ => 0, fun _ => 1, fun _ => 1, true⟩
      (fun _ => 2) : Spec ℚ 0 × Spec ℚ 0).1 0 = 2 := by
    simp only [get_interaction_probabilities, medium_probabilities_max]
    rw [specMax_single]
    norm_num [specAbs, specMul]
  rw [hA, hM] at h
  norm_num at h

/-- C2 (amended): the three heuristics agree on single-channel input under
unit throughput and nonnegative coefficients — for every single-channel
radiance and interaction with `0 <= sigma_t` and `0 <= sigma_n` and
throughput 1, Analog, Maximum and Mean return identical
`prob_s`/`prob_n` pairs; and they diverge pairwise on a two-channel input
with channel-varying coefficients. -/
theorem C2_amended_single_channel :
    (∀ (radiance : Spec ℚ 0) (mi : MediumInteraction ℚ 0),
        0 ≤ mi.sigma_t 0 → 0 ≤ mi.sigma_n 0 →
        get_interaction_probabilities MediumEventSamplingMode.Analogue
            radiance mi (fun _ => 1) =
          get_interaction_probabilities MediumEventSamplingMode.Maximum
            radiance mi (fun _ => 1) ∧
        get_interaction_probabilities MediumEventSamplingMode.Maximum
            radiance mi (fun _ => 1) =
          get_interaction_probabilities MediumEventSamplingMode.Mean
            radiance mi (fun _ => 1)) ∧
    ((get_interaction_probabilities MediumEventSamplingMode.Analogue
          (fun _ => 0) divergenceInteraction (fun _ => 1)).1 0 ≠
        (get_interaction_probabilities MediumEventSamplingMode.Maximum
          (fun _ => 0) divergenceInteraction (fun _ => 1)).1 0 ∧
      (get_interaction_probabilities MediumEventSamplingMode.Analogue
          (fun _ => 0) divergenceInteraction (fun _ => 1)).1 0 ≠
        (get_interaction_probabilities MediumEventSamplingMode.Mean
          (fun _ => 0) divergenceInteraction (fun _ => 1)).1 0 ∧
      (get_interaction_probabilities MediumEventSamplingMode.Maximum
          (fun _ => 0) divergenceInteraction (fun _ => 1)).1 0 ≠
        (get_interaction_probabilities MediumEventSamplingMode.Mean
          (fun _ => 0) divergenceInteraction (fun _ => 1)).1 0) := by
  constructor
  · intro radiance mi hst hsn
    have hA1 : (get_interaction_probabilities MediumEventSamplingMode.Analogue
        radiance mi (fun _ => 1)).1 0 = mi.sigma_t 0 := rfl
    have hA2 : (get_interaction_probabilities MediumEventSamplingMode.Analogue
        radiance mi (fun _ => 1)).2 0 = mi.sigma_n 0 + |radiance 0| := by
      simp only [get_interaction_probabilities, medium_probabilities_analog,
        specMean_single, specAbs]
      rw [max_eq_right (le_abs_self _)]
    have hM1 : (get_interaction_probabilities MediumEventSamplingMode.Maximum
        radiance mi (fun _ => 1)).1 0 = mi.sigma_t 0 := by
      simp only [get_interaction_probabilities, medium_probabilities_max,
        specMax_single, specAbs, specMul]
      rw [mul_one, abs_of_nonneg hst]
    have hM2 : (get_interaction_probabilities MediumEventSamplingMode.Maximum
        radiance mi (fun _ => 1)).2 0 = mi.sigma_n 0 + |radiance 0| := by
      simp only [get_interaction_probabilities, medium_probabilities_max,
        specMax_single, specAbs, specMul, max_self, mul_one]
      rw [abs_of_nonneg hsn]
    have hE1 : (get_interaction_probabilities MediumEventSamplingMode.Mean
        radiance mi (fun _ => 1)).1 0 = mi.sigma_t 0 := by
      simp only [get_interaction_probabilities, medium_probabilities_mean,
        specMean_single, specAbs, specMul]
      rw [mul_one, abs_of_nonneg hst]
    have hE2 : (get_interaction_probabilities MediumEventSamplingMode.Mean
        radiance mi (fun _ => 1)).2 0 = mi.sigma_n 0 + |radiance 0| := by
      simp only [get_interaction_probabilities, medium_probabilities_mean,
        specMean_single, specAbs, specMul]
      norm_num [abs_of_nonneg hsn]
    refine ⟨single_channel_pair_ext _ _ ?_ ?_, single_channel_pair_ext _ _ ?_ ?_⟩
    · rw [hA1, hM1]
    · rw [hA2, hM2]
    · rw [hM1, hE1]
    · rw [hM2, hE2]
  · have hA : (get_interaction_probabilities MediumEventSamplingMode.Analogue
        (fun _ => 0) divergenceInteraction (fun _ => 1)).1 0 = 1 := by
      simp only [get_interaction_probabilities, medium_probabilities_analog,
        divergenceInteraction]
      norm_num
    have hM : (get_interaction_probabilities MediumEventSamplingMode.Maximum
        (fun _ => 0) divergenceInteraction (fun _ => 1)).1 0 = 3 := by
      simp only [get_interaction_probabilities, medium_probabilities_max,
        specMax_two, specAbs, specMul, divergenceInteraction]
      norm_num
    have hE : (get_interaction_probabilities MediumEventSamplingMode.Mean
        (fun _ => 0) divergenceInteraction (fun _ => 1)).1 0 = 2 := by
      simp only [get_interaction_probabilities, medium_probabilities_mean,
        specMean_two, specAbs, specMul, divergenceInteraction]
      norm_num
    refine ⟨?_, ?_, ?_⟩
    · rw [hA, hM]; norm_num
    · rw [hA, hE]; norm_num
    · rw [hM, hE]; norm_num

/-- C2 amended witness: the agreement holds at a concrete single-channel
input with `sigma_t = 2`, `sigma_n = 1`, radiance `-2`, throughput 1. -/
theorem C2_amended_single_channel_witness :
    (0 : ℚ) ≤ 2 ∧ (0 : ℚ) ≤ 1 ∧
    (get_interaction_probabilities MediumEventSamplingMode.Analogue
        (fun _ => -2)
        ⟨0, fun _ => 1, fun _ => 1, fun _ => 2, fun _ => 2, true⟩
        (fun _ => 1) : Spec ℚ 0 × Spec ℚ 0) =
      get_interaction_probabilities MediumEventSamplingMode.Maximum
        (fun _ => -2)
        ⟨0, fun _ => 1, fun _ => 1, fun _ => 2, fun _ => 2, true⟩
        (fun _ => 1) :=
  ⟨by norm_num, by norm_num,
   (C2_amended_single_channel.1 (fun _ => -2)
      ⟨0, fun _ => 1, fun _ => 1, fun _ => 2, fun _ => 2, true⟩
      (by norm_num) (by norm_num)).1⟩

/-- C8: in each of the three sampling modes, for componentwise nonnegative
radiance, throughput and coefficients, both probabilities are nonnegative
on every channel (in this exact-arithmetic embedding the outputs are total
well-defined rationals, so no NaN value can arise). -/
theorem C8_probabilities_nonneg {n : ℕ} (mode : MediumEventSamplingMode)
    (radiance throughput : Spec ℚ n) (mi : MediumInteraction ℚ n)
    (hr : ∀ j, 0 ≤ radiance j) (hth : ∀ j, 0 ≤ throughput j)
    (hst : ∀ j, 0 ≤ mi.sigma_t j) (hsn : ∀ j, 0 ≤ mi.sigma_n j)
    (i : Fin (n + 1)) :
    0 ≤ (get_interaction_probabilities mode radiance mi throughput).1 i ∧
    0 ≤ (get_interaction_probabilities mode radiance mi throughput).2 i := by
  cases mode with
  | Analogue =>
      refine ⟨hst i, add_nonneg (hsn i) ?_⟩
      exact le_trans
        (specMean_nonneg (specAbs radiance) fun j => abs_nonneg (radiance j))
        (le_max_right _ _)
  | Maximum =>
      simp only [get_interaction_probabilities, medium_probabilities_max]
      exact ⟨specMax_specAbs_nonneg _,
             add_nonneg (specMax_specAbs_nonneg _) (specMax_specAbs_nonneg _)⟩
  | Mean =>
      simp only [get_interaction_probabilities, medium_probabilities_mean]
      exact ⟨specMean_nonneg _ fun j => abs_nonneg _,
             add_nonneg (specMean_nonneg _ fun j => abs_nonneg _)
               (specMean_nonneg _ fun j => abs_nonneg _)⟩

/-- C8 witness: nonnegativity at a concrete nonnegative single-channel
input, in all three modes. -/
theorem C8_probabilities_nonneg_witness :
    ((0:ℚ) ≤ 1 ∧
     0 ≤ (get_interaction_probabilities MediumEventSamplingMode.Analogue
            (fun _ => 1)
            ⟨0, fun _ => 1, fun _ => 1, fun _ => 2, fun _ => 2, true⟩
            (fun _ => 1) : Spec ℚ 0 × Spec ℚ 0).1 0) ∧
    (0 ≤ (get_interaction_probabilities MediumEventSamplingMode.Maximum
            (fun _ => 1)
            ⟨0, fun _ => 1, fun _ => 1, fun _ => 2, fun _ => 2, true⟩
            (fun _ => 1) : Spec ℚ 0 × Spec ℚ 0).2 0) ∧
    (0 ≤ (get_interaction_probabilities MediumEventSamplingMode.Mean
            (fun _ => 1)
            ⟨0, fun _ => 1, fun _ => 1, fun _ => 2, fun _ => 2, true⟩
            (fun _ => 1) : Spec ℚ 0 × Spec ℚ 0).2 0) :=
  ⟨⟨by norm_num,
    (C8_probabilities_nonneg MediumEventSamplingMode.Analogue
      (fun _ => 1) (fun _ => 1)
      ⟨0, fun _ => 1, fun _ => 1, fun _ => 2, fun _ => 2, true⟩
      (fun j => by norm_num) (fun j => by norm_num) (fun j => by norm_num)
      (fun j => by norm_num) 0).1⟩,
   (C8_probabilities_nonneg MediumEventSamplingMode.Maximum
      (fun _ => 1) (fun _ => 1)
      ⟨0, fun _ => 1, fun _ => 1, fun _ => 2, fun _ => 2, true⟩
      (fun j => by norm_num) (fun j => by norm_num) (fun j => by norm_num)
      (fun j => by norm_num) 0).2,
   (C8_probabilities_nonneg MediumEventSamplingMode.Mean
      (fun _ => 1) (fun _ => 1)
      ⟨0, fun _ => 1, fun _ => 1, fun _ => 2, fun _ => 2, true⟩
      (fun j => by norm_num) (fun j => by norm_num) (fun j => by norm_num)
      (fun j => by norm_num) 0).2⟩

/-- C1: `transmittance_eval_pdf` returns, per spectral channel,
`(exp(-sigma_maj * mi.t), sigma_t * exp(-sigma_maj * mi.t))` when
`mi.t <= si.t`, and the survival value `exp(-sigma_maj * si.t)` for both
outputs when `mi.t > si.t`; with a constant extinction `sigma` and
`mi.t > si.t = L` both outputs equal `exp(-sigma * L)` on every channel. -/
theorem C1_transmittance_eval_pdf_cases {n : ℕ}
    (mi : MediumInteraction ℝ n) (si_t : ℝ) :
    (mi.t ≤ si_t →
      transmittance_eval_pdf mi si_t =
        (fun i => Real.exp (-(mi.sigma_maj i) * mi.t),
         fun i => mi.sigma_t i * Real.exp (-(mi.sigma_maj i) * mi.t))) ∧
    (si_t < mi.t →
      transmittance_eval_pdf mi si_t =
        (fun i => Real.exp (-(mi.sigma_maj i) * si_t),
         fun i => Real.exp (-(mi.sigma_maj i) * si_t))) ∧
    (∀ sigma : ℝ, si_t < mi.t → (∀ i, mi.sigma_maj i = sigma) →
      transmittance_eval_pdf mi si_t =
        (fun _ => Real.exp (-sigma * si_t),
         fun _ => Real.exp (-sigma * si_t))) := by
  refine ⟨fun h => ?_, fun h => ?_, fun sigma h hconst => ?_⟩
  · simp only [transmittance_eval_pdf, if_pos h]
  · simp only [transmittance_eval_pdf, if_neg (not_le.mpr h)]
  · simp only [transmittance_eval_pdf, if_neg (not_le.mpr h), hconst]

/-- C1 witness: at a zero-majorant interaction with `t = 2` and
`sigma_t = 5`, the sampled-interaction branch fires at `si.t = 3` and the
escape branch with constant extinction 0 fires at `si.t = 1`. -/
theorem C1_transmittance_eval_pdf_cases_witness :
    transmittance_eval_pdf
        (⟨2, fun _ => 0, fun _ => 0, fun _ => 5, fun _ => 0, true⟩ :
          MediumInteraction ℝ 0) 3 =
      (fun _ => Real.exp (-(0 : ℝ) * 2), fun _ => 5 * Real.exp (-(0 : ℝ) * 2)) ∧
    transmittance_eval_pdf
        (⟨2, fun _ => 0, fun _ => 0, fun _ => 5, fun _ => 0, true⟩ :
          MediumInteraction ℝ 0) 1 =
      (fun _ => Real.exp (-(0 : ℝ) * 1), fun _ => Real.exp (-(0 : ℝ) * 1)) :=
  ⟨(C1_transmittance_eval_pdf_cases
      ⟨2, fun _ => 0, fun _ => 0, fun _ => 5, fun _ => 0, true⟩ 3).1
      (by norm_num),
   (C1_transmittance_eval_pdf_cases
      ⟨2, fun _ => 0, fun _ => 0, fun _ => 5, fun _ => 0, true⟩ 1).2.2 0
      (by norm_num) (fun i => rfl)⟩

/-- C6: with a zero or negative majorant on the sampling channel,
`sample_interaction` returns the inactive no-interaction record, and the
result does not depend on the uniform sample — the branch short-circuits
before the exponential step that divides by the majorant. -/
theorem C6_zero_majorant_short_circuits {n : ℕ} (hit : Bool)
    (t_min t_max : ℝ) (maj : Spec ℝ n) (channel : Fin (n + 1)) (u u' : ℝ)
    (coeffs : ℝ → Spec ℝ n × Spec ℝ n × Spec ℝ n)
    (h : maj channel ≤ 0) :
    sample_interaction hit t_min t_max maj channel u coeffs =
      noInteraction t_max maj ∧
    sample_interaction hit t_min t_max maj channel u coeffs =
      sample_interaction hit t_min t_max maj channel u' coeffs ∧
    (sample_interaction hit t_min t_max maj channel u coeffs).active
      = false := by
  cases hit with
  | false => exact ⟨rfl, rfl, rfl⟩
  | true =>
      refine ⟨?_, ?_, ?_⟩ <;> simp [sample_interaction, h, noInteraction]

/-- C6 witness: zero majorant at a concrete input, two different uniform
samples. -/
theorem C6_zero_majorant_short_circuits_witness :
    (0 : ℝ) ≤ 0 ∧
    sample_interaction true 0 1 (fun _ => 0) 0 (1 / 2)
        (fun _ => (fun _ => 0, fun _ => 0, fun _ => 0)) =
      (noInteraction 1 (fun _ => 0) : MediumInteraction ℝ 0) :=
  ⟨le_refl 0,
   (C6_zero_majorant_short_circuits true 0 1 (fun _ => 0) 0 (1 / 2) (1 / 3)
      (fun _ => (fun _ => 0, fun _ => 0, fun _ => 0)) (le_refl 0)).1⟩

/-- C7: when the exponential step overshoots `t_max` the lane comes back
inactive but carries the sentinel boundary distance `t_max`; a ray that
never hits the support comes back inactive. -/
theorem C7_boundary_exit_and_miss {n : ℕ} (t_min t_max : ℝ)
    (maj : Spec ℝ n) (channel : Fin (n + 1)) (u : ℝ)
    (coeffs : ℝ → Spec ℝ n × Spec ℝ n × Spec ℝ n) :
    (0 < maj channel →
      t_max < t_min - Real.log (1 - u) / maj channel →
      (sample_interaction true t_min t_max maj channel u coeffs).active
          = false ∧
        (sample_interaction true t_min t_max maj channel u coeffs).t
          = t_max) ∧
    (sample_interaction false t_min t_max maj channel u coeffs).active
      = false := by
  refine ⟨fun hmaj hstep => ?_, rfl⟩
  have hneg : ¬ maj channel ≤ 0 := not_le.mpr hmaj
  constructor <;> simp [sample_interaction, hneg, hstep, noInteraction]

/-- C7 witness: with `t_min = 5`, `t_max = 3`, unit majorant and uniform
sample 0 the step lands at 5 past the boundary; a missing ray is inactive
too. -/
theorem C7_boundary_exit_and_miss_witness :
    ((0 : ℝ) < 1 ∧
     (3 : ℝ) < 5 - Real.log (1 - 0) / 1 ∧
     (sample_interaction true 5 3 (fun _ => 1) 0 0
        (fun _ => (fun _ => 0, fun _ => 0, fun _ => 0)) :
          MediumInteraction ℝ 0).t = 3) ∧
    (sample_interaction false 5 3 (fun _ => 1) 0 0
       (fun _ => (fun _ => 0, fun _ => 0, fun _ => 0)) :
         MediumInteraction ℝ 0).active = false :=
  ⟨⟨by norm_num, by norm_num [Real.log_one],
    ((C7_boundary_exit_and_miss 5 3 (fun _ => 1) 0 0
        (fun _ => (fun _ => 0, fun _ => 0, fun _ => 0))).1
      (by norm_num) (by norm_num [Real.log_one])).2⟩,
   (C7_boundary_exit_and_miss 5 3 (fun _ => 1) 0 0
      (fun _ => (fun _ => 0, fun _ => 0, fun _ => 0))).2⟩

/-- C9: whenever the coefficient evaluator respects the decomposition
`sigma_t = sigma_s + sigma_n` with nonnegative parts (the invariant the
spec requires of the external strategy), every interaction produced by
`sample_interaction` satisfies it componentwise, with all coefficients
nonnegative. -/
theorem C9_coefficient_decomposition {n : ℕ} (hit : Bool)
    (t_min t_max : ℝ) (maj : Spec ℝ n) (channel : Fin (n + 1)) (u : ℝ)
    (coeffs : ℝ → Spec ℝ n × Spec ℝ n × Spec ℝ n)
    (hdecomp : ∀ t i, (coeffs t).2.2 i = (coeffs t).1 i + (coeffs t).2.1 i)
    (hnn : ∀ t i, 0 ≤ (coeffs t).1 i ∧ 0 ≤ (coeffs t).2.1 i)
    (i : Fin (n + 1)) :
    (sample_interaction hit t_min t_max maj channel u coeffs).sigma_t i =
      (sample_interaction hit t_min t_max maj channel u coeffs).sigma_s i +
        (sample_interaction hit t_min t_max maj channel u coeffs).sigma_n i ∧
    0 ≤ (sample_interaction hit t_min t_max maj channel u coeffs).sigma_s i ∧
    0 ≤ (sample_interaction hit t_min t_max maj channel u coeffs).sigma_n i ∧
    0 ≤ (sample_interaction hit t_min t_max maj channel u coeffs).sigma_t i
    := by
  cases hit with
  | false =>
      refine ⟨?_, ?_, ?_, ?_⟩ <;> simp [sample_interaction, noInteraction]
  | true =>
      by_cases h1 : maj channel ≤ 0
      · refine ⟨?_, ?_, ?_, ?_⟩ <;> simp [sample_interaction, h1, noInteraction]
      · by_cases h2 : t_max < t_min - Real.log (1 - u) / maj channel
        · refine ⟨?_, ?_, ?_, ?_⟩ <;>
            simp [sample_interaction, h1, h2, noInteraction]
        · have ht := hdecomp (t_min - Real.log (1 - u) / maj channel) i
          have hn := hnn (t_min - Real.log (1 - u) / maj channel) i
          refine ⟨?_, ?_, ?_, ?_⟩
          · simpa [sample_interaction, h1, h2] using ht
          · simpa [sample_interaction, h1, h2] using hn.1
          · simpa [sample_interaction, h1, h2] using hn.2
          · have h3 : 0 ≤ (coeffs (t_min - Real.log (1 - u) /
                maj channel)).2.2 i := by
              rw [ht]; exact add_nonneg hn.1 hn.2
            simpa [sample_interaction, h1, h2] using h3

/-- C9 witness: a constant evaluator with `sigma_s = 1`, `sigma_n = 2`,
`sigma_t = 3` produces an interaction satisfying the decomposition. -/
theorem C9_coefficient_decomposition_witness :
    (sample_interaction true 0 10 (fun _ => 4) 0 0
        (fun _ => (fun _ => 1, fun _ => 2, fun _ => 3)) :
          MediumInteraction ℝ 0).sigma_t 0 =
      (sample_interaction true 0 10 (fun _ => 4) 0 0
          (fun _ => (fun _ => 1, fun _ => 2, fun _ => 3)) :
            MediumInteraction ℝ 0).sigma_s 0 +
        (sample_interaction true 0 10 (fun _ => 4) 0 0
            (fun _ => (fun _ => 1, fun _ => 2, fun _ => 3)) :
              MediumInteraction ℝ 0).sigma_n 0 :=
  (C9_coefficient_decomposition true 0 10 (fun _ => 4) 0 0
    (fun _ => (fun _ => 1, fun _ => 2, fun _ => 3))
    (fun t i => by norm_num) (fun t i => by norm_num) 0).1

end MitsubaMedium
